import Mathlib

/-!
Verification of the handshake reconciliation engine and replication
lifecycle of the `door` edge-device application.

The development shallowly embeds the TypeScript sources:
 * `received-parse-utils.ts` (`parseEventsArray`, `parseHandshakeField`),
 * `received-validate-utils.ts` (`validateDoorPermission`,
   `hasReceiveEvent`, `hasDoorAcknowledgment`),
 * `received-update-utils.ts` (`updateHandshake`),
 * the `received$` reconciliation pipeline
   (`HandshakeReplicationService.handleReceivedReplication`),
 * `DatabaseService` lifecycle methods
   (`initialize`, `destroy`, `stopReplication`),
 * `ClientIdentityService` (`getClientId`, `setClientId`,
   `removeClientId`).

JavaScript `JSON.parse` / `JSON.stringify` are modelled by an executable
JSON value type with a fuel-indexed recursive-descent parser and a
serializer for the flat string-valued objects the code stringifies.
-/

/-- JSON values.  Objects keep their fields in insertion order, as
JavaScript objects do; numbers keep their source token. -/
inductive Json where
  | null
  | bool (b : Bool)
  | num (raw : String)
  | str (s : String)
  | arr (elems : List Json)
  | obj (fields : List (String × Json))

/-- Is the value an array?  (`Array.isArray` in JavaScript.) -/
def Json.isArr : Json → Bool
  | .arr _ => true
  | _ => false

/-- JSON insignificant whitespace. -/
def isJsonWs (c : Char) : Bool :=
  c = ' ' || c = '\t' || c = '\n' || c = '\x0d'

/-- Drop leading JSON whitespace. -/
def skipWs : List Char → List Char
  | [] => []
  | c :: cs => if isJsonWs c then skipWs cs else c :: cs

/-- Value of one hexadecimal digit. -/
def hexVal (c : Char) : Option Nat :=
  if '0' ≤ c ∧ c ≤ '9' then some (c.toNat - 48)
  else if 'a' ≤ c ∧ c ≤ 'f' then some (c.toNat - 87)
  else if 'A' ≤ c ∧ c ≤ 'F' then some (c.toNat - 55)
  else none

/-- Parse the body of a JSON string literal (the opening quote already
consumed); returns the decoded characters and the input after the
closing quote.  Mirrors the escape set accepted by `JSON.parse`. -/
def parseStringBody : List Char → Option (List Char × List Char)
  | [] => none
  | c :: cs =>
    if c = '"' then some ([], cs)
    else if c = '\\' then
      match cs with
      | [] => none
      | e :: cs' =>
        if e = '"' then (parseStringBody cs').map (fun p => ('"' :: p.1, p.2))
        else if e = '\\' then (parseStringBody cs').map (fun p => ('\\' :: p.1, p.2))
        else if e = '/' then (parseStringBody cs').map (fun p => ('/' :: p.1, p.2))
        else if e = 'b' then (parseStringBody cs').map (fun p => ('\x08' :: p.1, p.2))
        else if e = 'f' then (parseStringBody cs').map (fun p => ('\x0c' :: p.1, p.2))
        else if e = 'n' then (parseStringBody cs').map (fun p => ('\n' :: p.1, p.2))
        else if e = 'r' then (parseStringBody cs').map (fun p => ('\x0d' :: p.1, p.2))
        else if e = 't' then (parseStringBody cs').map (fun p => ('\t' :: p.1, p.2))
        else if e = 'u' then
          match cs' with
          | h1 :: h2 :: h3 :: h4 :: cs'' =>
            match hexVal h1, hexVal h2, hexVal h3, hexVal h4 with
            | some a, some b, some c2, some d =>
              (parseStringBody cs'').map
                (fun p => (Char.ofNat (((a * 16 + b) * 16 + c2) * 16 + d) :: p.1, p.2))
            | _, _, _, _ => none
          | _ => none
        else none
    else if c.toNat < 32 then none
    else (parseStringBody cs).map (fun p => (c :: p.1, p.2))

/-- Fractional part of a JSON number (possibly empty). -/
def parseFracPart (cs : List Char) : Option (List Char × List Char) :=
  match cs with
  | '.' :: r =>
    match r.span (·.isDigit) with
    | (ds, r') => if ds.isEmpty then none else some ('.' :: ds, r')
  | _ => some ([], cs)

/-- Exponent part of a JSON number (possibly empty). -/
def parseExpPart (cs : List Char) : Option (List Char × List Char) :=
  match cs with
  | c :: r =>
    if c = 'e' ∨ c = 'E' then
      match r with
      | s :: r' =>
        if s = '+' ∨ s = '-' then
          match r'.span (·.isDigit) with
          | (ds, r'') => if ds.isEmpty then none else some (c :: s :: ds, r'')
        else
          match r.span (·.isDigit) with
          | (ds, r'') => if ds.isEmpty then none else some (c :: ds, r'')
      | [] => none
    else some ([], cs)
  | [] => some ([], cs)

/-- Lex a JSON number token. -/
def parseNumberChars (cs : List Char) : Option (List Char × List Char) :=
  match cs with
  | '-' :: r =>
    match parseNumberChars r with
    | some (tok, rest) => some ('-' :: tok, rest)
    | none => none
  | c :: r =>
    if c.isDigit then
      match (if c = '0' then ([], r) else r.span (·.isDigit)) with
      | (ds, r1) =>
        match parseFracPart r1 with
        | some (fr, r2) =>
          match parseExpPart r2 with
          | some (ex, r3) => some (c :: ds ++ fr ++ ex, r3)
          | none => none
        | none => none
    else none
  | [] => none

/-- Parser modes: a full value, the members of an object after `{`
(at least one member remaining), or the elements of an array after `[`
(at least one element remaining). -/
inductive PMode where
  | value
  | members (acc : List (String × Json))
  | elems (acc : List Json)

/-- Insert-or-overwrite a key in an object field list, keeping the
original position of an existing key — JavaScript object assignment
semantics, used both for duplicate keys in `JSON.parse` and for
`Object.assign`. -/
def setKey : List (String × Json) → String → Json → List (String × Json)
  | [], k, v => [(k, v)]
  | (k', v') :: t, k, v => if k' = k then (k', v) :: t else (k', v') :: setKey t k v

/-- Fuel-indexed recursive-descent JSON parser (model of `JSON.parse`,
minus the result: returns the value and the unconsumed input). -/
def parseJ : Nat → PMode → List Char → Option (Json × List Char)
  | 0, _, _ => none
  | f + 1, .value, cs =>
    match skipWs cs with
    | [] => none
    | c :: rest =>
      if c = '{' then
        match skipWs rest with
        | [] => none
        | c' :: rest' =>
          if c' = '}' then some (.obj [], rest')
          else parseJ f (.members []) (c' :: rest')
      else if c = '[' then
        match skipWs rest with
        | [] => none
        | c' :: rest' =>
          if c' = ']' then some (.arr [], rest')
          else parseJ f (.elems []) (c' :: rest')
      else if c = '"' then
        (parseStringBody rest).map (fun p => (.str (String.mk p.1), p.2))
      else if c = 'n' then
        match rest with
        | c1 :: c2 :: c3 :: r =>
          if c1 = 'u' ∧ c2 = 'l' ∧ c3 = 'l' then some (.null, r) else none
        | _ => none
      else if c = 't' then
        match rest with
        | c1 :: c2 :: c3 :: r =>
          if c1 = 'r' ∧ c2 = 'u' ∧ c3 = 'e' then some (.bool true, r) else none
        | _ => none
      else if c = 'f' then
        match rest with
        | c1 :: c2 :: c3 :: c4 :: r =>
          if c1 = 'a' ∧ c2 = 'l' ∧ c3 = 's' ∧ c4 = 'e' then some (.bool false, r) else none
        | _ => none
      else
        match parseNumberChars (c :: rest) with
        | some (tok, r) => some (.num (String.mk tok), r)
        | none => none
  | f + 1, .members acc, cs =>
    match cs with
    | [] => none
    | c :: rest =>
      if c = '"' then
        match parseStringBody rest with
        | none => none
        | some (key, rest1) =>
          match skipWs rest1 with
          | [] => none
          | c1 :: rest2 =>
            if c1 = ':' then
              match parseJ f .value rest2 with
              | none => none
              | some (v, rest3) =>
                match skipWs rest3 with
                | [] => none
                | c2 :: rest4 =>
                  if c2 = ',' then
                    parseJ f (.members (setKey acc (String.mk key) v)) (skipWs rest4)
                  else if c2 = '}' then some (.obj (setKey acc (String.mk key) v), rest4)
                  else none
            else none
      else none
  | f + 1, .elems acc, cs =>
    match parseJ f .value cs with
    | some (v, rest) =>
      match skipWs rest with
      | [] => none
      | c :: rest' =>
        if c = ',' then parseJ f (.elems (acc ++ [v])) rest'
        else if c = ']' then some (.arr (acc ++ [v]), rest')
        else none
    | none => none

/-- Model of `JSON.parse`: strict — the whole input must be one JSON
value surrounded only by whitespace; `none` models a thrown
`SyntaxError`. -/
def jsonParse (s : String) : Option Json :=
  match parseJ (s.data.length + 1) .value s.data with
  | some (j, rest) => if (skipWs rest).isEmpty then some j else none
  | none => none

/-- Hexadecimal digit character (lower case, as `JSON.stringify`). -/
def hexDigitChar (n : Nat) : Char :=
  if n < 10 then Char.ofNat (48 + n) else Char.ofNat (87 + n)

/-- Escape one character as `JSON.stringify` does inside a string
literal. -/
def encodeChar (c : Char) : List Char :=
  if c = '"' then ['\\', '"']
  else if c = '\\' then ['\\', '\\']
  else if c = '\x08' then ['\\', 'b']
  else if c = '\t' then ['\\', 't']
  else if c = '\n' then ['\\', 'n']
  else if c = '\x0c' then ['\\', 'f']
  else if c = '\x0d' then ['\\', 'r']
  else if c.toNat < 32 then
    ['\\', 'u', '0', '0', hexDigitChar (c.toNat / 16), hexDigitChar (c.toNat % 16)]
  else [c]

/-- Escape a character list. -/
def encodeList (l : List Char) : List Char :=
  l.foldr (fun c a => encodeChar c ++ a) []

/-- A serialized JSON string literal, quotes included. -/
def encodeStrChars (s : String) : List Char :=
  '"' :: (encodeList s.data ++ ['"'])

/-- Members of a serialized flat object whose values are all strings
(the only shape this code base ever passes to `JSON.stringify`). -/
def stringifyStrObjAux : List (String × String) → List Char
  | [] => ['}']
  | [(k, v)] => encodeStrChars k ++ ':' :: (encodeStrChars v ++ ['}'])
  | (k, v) :: rest => encodeStrChars k ++ ':' :: (encodeStrChars v ++ ',' :: stringifyStrObjAux rest)

/-- `JSON.stringify` of a flat object with string values. -/
def jsonStringifyStrObj (fields : List (String × String)) : String :=
  String.mk ('{' :: stringifyStrObjAux fields)

/-- Field lookup in a parsed JSON object (JavaScript property read on
a plain object coming from `JSON.parse`). -/
def lookupField (fields : List (String × Json)) (k : String) : Option Json :=
  (fields.find? (fun p => p.1 = k)).map (fun p => p.2)

/-! ## Reconciler data model -/

/-- `door_permission` as persisted: either a native sequence or a
comma-joined string. -/
inductive DoorPermission where
  | arr (l : List String)
  | str (s : String)
  deriving DecidableEq

/-- Local transaction snapshot (only the field the reconciler reads). -/
structure Txn where
  door_permission : DoorPermission
  deriving DecidableEq

/-- A received wire record; the reconciler only ever reads its
`transaction_id` (`""` models a missing/empty id, which is falsy). -/
structure ReceivedRecord where
  transaction_id : String
  handshake : String
  events : String
  deriving DecidableEq

/-- Local handshake document (the fields the reconciler reads or
writes). -/
structure HandshakeDoc where
  transaction_id : String
  handshake : String
  events : String
  client_updated_at : String
  deriving DecidableEq

/-- JavaScript whitespace for `String.prototype.trim`. -/
def isJsSpace (c : Char) : Bool := c.isWhitespace

/-- `String.prototype.trim`. -/
def jsTrim (s : String) : String :=
  String.mk (((s.data.dropWhile isJsSpace).reverse.dropWhile isJsSpace).reverse)

/-- `String.prototype.split(',')`. -/
def splitComma : List Char → List (List Char)
  | [] => [[]]
  | c :: rest =>
    match splitComma rest with
    | [] => [[c]]
    | h :: t => if c = ',' then [] :: h :: t else (c :: h) :: t

/-- Step 3 of the reconciler: normalize `door_permission` to a list of
door ids — an array is used as is, a string is split on `,` with each
part trimmed (from `validateDoorPermission`,
`received-validate-utils.ts`). -/
def normalizeDoorPermission : DoorPermission → List String
  | .arr l => l
  | .str s => (splitComma s.data).map (fun l => jsTrim (String.mk l))

/-- `validateDoorPermission` (`received-validate-utils.ts`): true when
the normalized permission list contains the door id. -/
def validateDoorPermission (txn : Txn) (doorId : String) : Bool :=
  (normalizeDoorPermission txn.door_permission).contains doorId

/-- `parseEventsArray` (`received-parse-utils.ts`): an empty field is
falsy and yields `[]`; otherwise a strict parse, falling back to `[]`
when the parse fails or does not produce an array. -/
def parseEventsArray (events : String) : List Json :=
  if events = "" then []
  else
    match jsonParse events with
    | some (.arr a) => a
    | _ => []

/-- One step of the brace-depth scan of `parseHandshakeField`'s
malformed-input recovery: `curr` holds the characters (reversed) of the
candidate started at the first unconsumed `\x7b`, `depth` the running
brace depth, `objs` the objects recovered so far. -/
structure ScanState where
  curr : Option (List Char)
  depth : Int
  objs : List (List (String × Json))

/-- The loop body of the recovery scan in `parseHandshakeField`. -/
def extractStep (st : ScanState) (c : Char) : ScanState :=
  if c = '{' then
    match st.curr with
    | none => ⟨some [c], st.depth + 1, st.objs⟩
    | some l => ⟨some (c :: l), st.depth + 1, st.objs⟩
  else if c = '}' then
    match st.curr with
    | none => ⟨none, st.depth - 1, st.objs⟩
    | some l =>
      if st.depth - 1 = 0 then
        match jsonParse (String.mk (c :: l).reverse) with
        | some (.obj flds) => ⟨none, st.depth - 1, st.objs ++ [flds]⟩
        | _ => ⟨none, st.depth - 1, st.objs⟩
      else ⟨some (c :: l), st.depth - 1, st.objs⟩
  else
    match st.curr with
    | none => ⟨none, st.depth, st.objs⟩
    | some l => ⟨some (c :: l), st.depth, st.objs⟩

/-- The recovery scan of `parseHandshakeField`: every substring
delimited by a brace-depth return to zero that strictly parses to a
JSON object, in scan order. -/
def extractJsonObjects (cs : List Char) : List (List (String × Json)) :=
  (cs.foldl extractStep ⟨none, 0, []⟩).objs

/-- `Object.assign(a, b)` on parsed objects: fields of `b` inserted
left to right, overriding existing keys in place. -/
def mergeObj (a b : List (String × Json)) : List (String × Json) :=
  b.foldl (fun acc kv => setKey acc kv.1 kv.2) a

/-- `parseHandshakeField` (`received-parse-utils.ts`): an empty field
falls back to `"\x7b\x7d"`; strict parse first, accepting only a plain
object; otherwise the brace-depth recovery scan merges every recovered
object with `Object.assign(\x7b\x7d, ...objs)`. -/
def parseHandshakeField (hs : String) : List (String × Json) :=
  let handshakeValue := if hs = "" then ("\x7b\x7d" : String) else hs
  match jsonParse handshakeValue with
  | some (.obj flds) => flds
  | _ => (extractJsonObjects handshakeValue.data).foldl mergeObj []

/-- `hasReceiveEvent` (`received-validate-utils.ts`):
`eventsArray.some(e => e.type === 'RECEIVE' && e.actor === 'DOOR-'+doorId)`.
`none` models the `TypeError` thrown when an element is `null`
(property read on `null`); primitives and arrays read `undefined` and
do not match. -/
def hasReceiveEvent (eventsArray : List Json) (doorId : String) : Option Bool :=
  match eventsArray with
  | [] => some false
  | e :: rest =>
    match e with
    | .null => none
    | .obj fs =>
      if ((match lookupField fs "type" with
           | some (.str t) => decide (t = "RECEIVE")
           | _ => false)
          && (match lookupField fs "actor" with
              | some (.str a) => decide (a = "DOOR-" ++ doorId)
              | _ => false)) = true
      then some true
      else hasReceiveEvent rest doorId
    | _ => hasReceiveEvent rest doorId

/-- `hasDoorAcknowledgment` (`received-validate-utils.ts`):
`parsedHandshake && parsedHandshake[doorId] === 'ok'`. -/
def hasDoorAcknowledgment (parsedHandshake : List (String × Json)) (doorId : String) : Bool :=
  match lookupField parsedHandshake doorId with
  | some (.str v) => v = "ok"
  | _ => false

/-- `updateHandshake` (`received-update-utils.ts`): the `$set` patch —
the `handshake` field is replaced by `JSON.stringify(\x7b[doorId]: 'ok'\x7d)`,
the `events` field by the JSON text of the single new RECEIVE event,
and `client_updated_at` refreshed. -/
def updateHandshake (h : HandshakeDoc) (doorId : String) (now : String) : HandshakeDoc :=
  { h with
      handshake := jsonStringifyStrObj [(doorId, "ok")],
      events := jsonStringifyStrObj
        [("type", "RECEIVE"), ("at", now), ("actor", "DOOR-" ++ doorId), ("status", "SUCCESS")],
      client_updated_at := now }

/-- `handleReceivedReplication`
(`HandshakeReplicationService`, `received-validate-utils.ts`): one
reconciliation pass over a received record, given the local transaction
looked up by `transaction_id`, the device identity from
`getClientId()`, and the local handshake document looked up by
`transaction_id`.  Returns the resulting handshake document and
whether the step-10 write was performed; every early exit (missing id,
missing documents, falsy client id, failed authorization, an existing
RECEIVE event or acknowledgment, or a thrown `TypeError` while
scanning events) leaves the document unchanged. -/
def handleReceivedReplication (received : ReceivedRecord) (txn : Option Txn)
    (clientId : Option String) (hOpt : Option HandshakeDoc) (now : String) :
    Option HandshakeDoc × Bool :=
  if received.transaction_id = "" then (hOpt, false)
  else
    match txn with
    | none => (hOpt, false)
    | some t =>
      match clientId with
      | none => (hOpt, false)
      | some cid =>
        if cid = "" then (hOpt, false)
        else if validateDoorPermission t cid = false then (hOpt, false)
        else
          match hOpt with
          | none => (none, false)
          | some h =>
            match hasReceiveEvent (parseEventsArray h.events) cid with
            | none => (some h, false)
            | some true => (some h, false)
            | some false =>
              if hasDoorAcknowledgment (parseHandshakeField h.handshake) cid then
                (some h, false)
              else (some (updateHandshake h cid now), true)

/-- Apply the reconciliation pass once per timestamp in `nows`,
feeding each resulting document to the next delivery of the same
record. -/
def applyReceivedTimes (received : ReceivedRecord) (txn : Option Txn)
    (clientId : Option String) (hOpt : Option HandshakeDoc) (nows : List String) :
    Option HandshakeDoc :=
  nows.foldl (fun st now => (handleReceivedReplication received txn clientId st now).1) hOpt

/-! ## Lifecycle Manager (`DatabaseService`, `rxdb.service.ts`) -/

/-- The `DatabaseService` state flags (`_isReady`, `_isInitializing`,
`_currentDoorId`). -/
structure DbState where
  isReady : Bool
  isInitializing : Bool
  currentDoorId : Option String
  deriving DecidableEq

/-- Values emitted on `initState$`. -/
inductive InitEmission where
  | initializing
  | ready
  | error
  | idle
  deriving DecidableEq

/-- What a call to `DatabaseService.initialize` does from the caller's
point of view. -/
inductive InitCallResult where
  | ok
  | noop
  | lifecycleError
  | initError
  deriving DecidableEq

/-- The synchronous prefix of `DatabaseService.initialize` once both
guards have passed: set `_isInitializing` and emit `initializing`. -/
def initBegin (s : DbState) : DbState :=
  { s with isInitializing := true }

/-- The completion of `DatabaseService.initialize`'s body:
`bodySucceeds` abstracts whether database creation and replication
registration succeed.  On success `_isReady`/`_currentDoorId` are set
and `ready` emitted; on failure they are cleared, `error` emitted, and
the error re-thrown; `finally` clears `_isInitializing`. -/
def initFinish (doorId : String) (bodySucceeds : Bool) : DbState :=
  if bodySucceeds then ⟨true, false, some doorId⟩ else ⟨false, false, none⟩

/-- One whole call to `DatabaseService.initialize(doorId)`: the guard
against a concurrent initialization throws a `LifecycleError`; the
fast path returns when already ready with the same door id; otherwise
the state transitions through `initializing` to `ready` or `error`.
Returns the call result, the final state, and the `initState$`
emissions of this call in order. -/
def initializeCall (s : DbState) (doorId : String) (bodySucceeds : Bool) :
    InitCallResult × DbState × List InitEmission :=
  if s.isInitializing then (.lifecycleError, s, [])
  else if s.isReady ∧ s.currentDoorId = some doorId then (.noop, s, [])
  else if bodySucceeds then (.ok, initFinish doorId true, [.initializing, .ready])
  else (.initError, initFinish doorId false, [.initializing, .error])

/-- Teardown actions performed by `DatabaseService.destroy` /
`stopReplication`, in program order. -/
inductive TeardownAction where
  | stopTxnReplication
  | stopHandshakeReplication
  | unsubscribeTxnNetwork
  | unsubscribeHandshakeNetwork
  | graceWait (ms : Nat)
  | removeStore
  deriving DecidableEq

/-- `DatabaseService.stopReplication`: transaction replication is
stopped first, then handshake replication, then the network-status
subscriptions are released in the same order. -/
def stopReplication (hasTxnService hasHandshakeService : Bool) : List TeardownAction :=
  (if hasTxnService then [.stopTxnReplication] else [])
  ++ (if hasHandshakeService then [.stopHandshakeReplication] else [])
  ++ (if hasTxnService then [.unsubscribeTxnNetwork] else [])
  ++ (if hasHandshakeService then [.unsubscribeHandshakeNetwork] else [])

/-- What a call to `DatabaseService.destroy` does. -/
inductive DestroyCallResult where
  | ok
  | noop
  | lifecycleError
  deriving DecidableEq

/-- `DatabaseService.destroy`: no-op unless ready; throws a
`LifecycleError` while initializing; otherwise stops replications,
waits the 500 ms grace interval, removes the store, and resets to
idle.  Returns the result, the final state, and the teardown actions
in order. -/
def destroy (s : DbState) (hasTxnService hasHandshakeService hasDb : Bool) :
    DestroyCallResult × DbState × List TeardownAction :=
  if s.isReady = false then (.noop, s, [])
  else if s.isInitializing then (.lifecycleError, s, [])
  else
    (.ok, ⟨false, false, none⟩,
      stopReplication hasTxnService hasHandshakeService
        ++ [.graceWait 500] ++ (if hasDb then [.removeStore] else []))

/-! ## Client identity (`ClientIdentityService`, `client-identity.service.ts`) -/

/-- `ClientIdentityService` state: the preference stored under
`CLIENT_ID_KEY` and the in-memory `cachedId`. -/
structure IdentityState where
  prefClientId : Option String
  cachedId : Option String
  deriving DecidableEq

/-- JavaScript truthiness of `string | undefined`. -/
def strTruthy : Option String → Bool
  | some v => v ≠ ""
  | none => false

/-- `ClientIdentityService.getClientId`: returns the cached id when
truthy; otherwise reads the preference, caches `value || undefined`,
and returns `value`. -/
def getClientId (s : IdentityState) : Option String × IdentityState :=
  if strTruthy s.cachedId then (s.cachedId, s)
  else
    (s.prefClientId,
      { s with cachedId := if strTruthy s.prefClientId then s.prefClientId else none })

/-- `ClientIdentityService.setClientId`: stores the id in preferences;
the cache is not touched. -/
def setClientId (s : IdentityState) (clientId : String) : IdentityState :=
  { s with prefClientId := some clientId }

/-- `ClientIdentityService.removeClientId`: removes the preference;
the cache is not touched. -/
def removeClientId (s : IdentityState) : IdentityState :=
  { s with prefClientId := none }

/-- The operations a caller can run against `ClientIdentityService`. -/
inductive IdOp where
  | get
  | set (clientId : String)
  | remove
  deriving DecidableEq

/-- Run one identity operation (keeping only the state). -/
def applyIdOp (s : IdentityState) : IdOp → IdentityState
  | .get => (getClientId s).2
  | .set v => setClientId s v
  | .remove => removeClientId s

/-- Run a sequence of identity operations. -/
def applyIdOps (s : IdentityState) (ops : List IdOp) : IdentityState :=
  ops.foldl applyIdOp s

/-! ## Parser/serializer round-trip lemmas -/

theorem string_mk_data (s : String) : String.mk s.data = s := rfl

theorem hexVal_hexDigitChar (n : Nat) (h : n < 16) : hexVal (hexDigitChar n) = some n := by
  interval_cases n <;> rfl

theorem encodeList_cons (c : Char) (l : List Char) :
    encodeList (c :: l) = encodeChar c ++ encodeList l := rfl

/-- Decoding a `JSON.stringify`-escaped string body recovers exactly the
original characters and stops at the closing quote. -/
theorem parseStringBody_encodeList (l : List Char) (rest : List Char) :
    parseStringBody (encodeList l ++ '"' :: rest) = some (l, rest) := by
  induction l with
  | nil =>
    rw [show encodeList [] ++ '"' :: rest = '"' :: rest from rfl]
    rw [parseStringBody.eq_def]
    simp
  | cons c l ih =>
    rw [encodeList_cons, List.append_assoc]
    by_cases h1 : c = '"'
    · subst h1
      rw [show encodeChar '"' ++ (encodeList l ++ '"' :: rest)
            = '\\' :: '"' :: (encodeList l ++ '"' :: rest) from rfl]
      rw [parseStringBody.eq_def]
      simp +decide [ih]
    · by_cases h2 : c = '\\'
      · subst h2
        rw [show encodeChar '\\' ++ (encodeList l ++ '"' :: rest)
              = '\\' :: '\\' :: (encodeList l ++ '"' :: rest) from rfl]
        rw [parseStringBody.eq_def]
        simp +decide [ih]
      · by_cases h3 : c = '\x08'
        · subst h3
          rw [show encodeChar '\x08' ++ (encodeList l ++ '"' :: rest)
                = '\\' :: 'b' :: (encodeList l ++ '"' :: rest) from rfl]
          rw [parseStringBody.eq_def]
          simp +decide [ih]
        · by_cases h4 : c = '\t'
          · subst h4
            rw [show encodeChar '\t' ++ (encodeList l ++ '"' :: rest)
                  = '\\' :: 't' :: (encodeList l ++ '"' :: rest) from rfl]
            rw [parseStringBody.eq_def]
            simp +decide [ih]
          · by_cases h5 : c = '\n'
            · subst h5
              rw [show encodeChar '\n' ++ (encodeList l ++ '"' :: rest)
                    = '\\' :: 'n' :: (encodeList l ++ '"' :: rest) from rfl]
              rw [parseStringBody.eq_def]
              simp +decide [ih]
            · by_cases h6 : c = '\x0c'
              · subst h6
                rw [show encodeChar '\x0c' ++ (encodeList l ++ '"' :: rest)
                      = '\\' :: 'f' :: (encodeList l ++ '"' :: rest) from rfl]
                rw [parseStringBody.eq_def]
                simp +decide [ih]
              · by_cases h7 : c = '\x0d'
                · subst h7
                  rw [show encodeChar '\x0d' ++ (encodeList l ++ '"' :: rest)
                        = '\\' :: 'r' :: (encodeList l ++ '"' :: rest) from rfl]
                  rw [parseStringBody.eq_def]
                  simp +decide [ih]
                · by_cases h8 : c.toNat < 32
                  · have hd1 : c.toNat / 16 < 16 := by omega
                    have hd2 : c.toNat % 16 < 16 := by omega
                    have hv : (((0 * 16 + 0) * 16 + c.toNat / 16) * 16 + c.toNat % 16) = c.toNat := by
                      omega
                    have h0 : hexVal '0' = some 0 := rfl
                    simp only [encodeChar, if_neg h1, if_neg h2, if_neg h3, if_neg h4, if_neg h5,
                      if_neg h6, if_neg h7, if_pos h8]
                    rw [List.cons_append, List.cons_append, List.cons_append, List.cons_append,
                      List.cons_append, List.cons_append, List.nil_append]
                    rw [parseStringBody.eq_def]
                    simp +decide only [ite_true, ite_false, h0, hexVal_hexDigitChar _ hd1,
                      hexVal_hexDigitChar _ hd2, ih, Option.map_some']
                    rw [hv, Char.ofNat_toNat]
                  · simp only [encodeChar, if_neg h1, if_neg h2, if_neg h3, if_neg h4, if_neg h5,
                      if_neg h6, if_neg h7, if_neg h8]
                    rw [List.cons_append, List.nil_append]
                    rw [parseStringBody.eq_def]
                    simp only [if_neg h1, if_neg h2, if_neg h8, ih, Option.map_some']

theorem skipWs_lbrace (cs : List Char) : skipWs ('{' :: cs) = '{' :: cs := rfl

theorem skipWs_quote (cs : List Char) : skipWs ('"' :: cs) = '"' :: cs := rfl

theorem skipWs_colon (cs : List Char) : skipWs (':' :: cs) = ':' :: cs := rfl

theorem skipWs_rbrace (cs : List Char) : skipWs ('}' :: cs) = '}' :: cs := rfl

/-- Parsing the serialization of a one-field string object recovers the
object (with any remaining input), for every fuel reserve. -/
theorem parseJ_singleStrObj (f : Nat) (k v : String) (r : List Char) :
    parseJ (f + 3) .value
      ('{' :: '"' :: (encodeList k.data ++ '"' :: ':' :: '"' :: (encodeList v.data ++ '"' :: '}' :: r)))
      = some (.obj [(k, .str v)], r) := by
  rw [show f + 3 = (f + 2) + 1 from rfl]
  rw [parseJ.eq_def]
  simp +decide only [skipWs_lbrace, skipWs_quote, ite_true, ite_false]
  rw [parseJ.eq_def]
  simp +decide [skipWs_colon, skipWs_quote, parseStringBody_encodeList]
  rw [parseJ.eq_def]
  simp +decide [skipWs_quote, skipWs_rbrace, parseStringBody_encodeList,
    string_mk_data, setKey]

/-- A successful parse in `members` mode always yields an object. -/
theorem parseJ_members_isObj :
    ∀ (f : Nat) (acc : List (String × Json)) (cs : List Char) (j : Json) (r : List Char),
      parseJ f (.members acc) cs = some (j, r) → ∃ fs, j = .obj fs := by
  intro f
  induction f with
  | zero =>
    intro acc cs j r h
    rw [parseJ.eq_def] at h
    exact absurd h (by simp)
  | succ f ih =>
    intro acc cs j r h
    rw [parseJ.eq_def] at h
    simp only at h
    split at h
    · exact absurd h (by simp)
    · split at h
      · split at h
        · exact absurd h (by simp)
        · split at h
          · exact absurd h (by simp)
          · split at h
            · split at h
              · exact absurd h (by simp)
              · split at h
                · exact absurd h (by simp)
                · split at h
                  · exact ih _ _ _ _ h
                  · split at h
                    · simp only [Option.some.injEq, Prod.mk.injEq] at h
                      exact ⟨_, h.1.symm⟩
                    · exact absurd h (by simp)
            · exact absurd h (by simp)
      · exact absurd h (by simp)

/-- A successful parse of an input starting with `\x7b` always yields an
object. -/
theorem parseJ_value_lbrace_isObj (f : Nat) (cs : List Char) (j : Json) (r : List Char)
    (h : parseJ (f + 1) .value ('{' :: cs) = some (j, r)) : ∃ fs, j = .obj fs := by
  rw [parseJ.eq_def] at h
  simp +decide only [skipWs_lbrace, ite_true, ite_false] at h
  split at h
  · exact absurd h (by simp)
  · split at h
    · simp only [Option.some.injEq, Prod.mk.injEq] at h
      exact ⟨_, h.1.symm⟩
    · exact parseJ_members_isObj f _ _ j r h

theorem jsonStringifyStrObj_single_data (k v : String) :
    (jsonStringifyStrObj [(k, v)]).data
      = '{' :: '"' :: (encodeList k.data
          ++ '"' :: ':' :: '"' :: (encodeList v.data ++ '"' :: '}' :: ([] : List Char))) := by
  show '{' :: stringifyStrObjAux [(k, v)] = _
  simp [stringifyStrObjAux, encodeStrChars, List.append_assoc]

/-- `JSON.parse ∘ JSON.stringify` is the identity on one-field string
objects: the serialized acknowledgment map written in step 10 parses
back to exactly that map. -/
theorem jsonParse_stringify_single (k v : String) :
    jsonParse (jsonStringifyStrObj [(k, v)]) = some (.obj [(k, .str v)]) := by
  unfold jsonParse
  rw [jsonStringifyStrObj_single_data]
  rw [show ('{' :: '"' :: (encodeList k.data
        ++ '"' :: ':' :: '"' :: (encodeList v.data ++ '"' :: '}' :: ([] : List Char)))).length + 1
      = ((encodeList k.data).length + (encodeList v.data).length + 5) + 3 from by
    simp [List.length_append]; omega]
  rw [parseJ_singleStrObj]
  simp [skipWs]

/-- A serialized flat string object is never empty (it starts with a
brace). -/
theorem jsonStringifyStrObj_ne_empty (fields : List (String × String)) :
    jsonStringifyStrObj fields ≠ "" := by
  intro h
  have := congrArg String.data h
  simp [jsonStringifyStrObj] at this

/-- Strict parsing of a serialized flat string object can only fail or
produce an object — never an array. -/
theorem jsonParse_stringifyStrObj_notArr (fields : List (String × String)) :
    ∀ j, jsonParse (jsonStringifyStrObj fields) = some j → ∃ fs, j = .obj fs := by
  intro j hj
  unfold jsonParse at hj
  rw [show (jsonStringifyStrObj fields).data = '{' :: stringifyStrObjAux fields from rfl] at hj
  rw [show ('{' :: stringifyStrObjAux fields).length + 1
      = (stringifyStrObjAux fields).length + 1 + 1 from by simp] at hj
  cases hp : parseJ ((stringifyStrObjAux fields).length + 1 + 1) .value
      ('{' :: stringifyStrObjAux fields) with
  | none => rw [hp] at hj; exact absurd hj (by simp)
  | some p =>
    rw [hp] at hj
    obtain ⟨j', r⟩ := p
    obtain ⟨fs, rfl⟩ := parseJ_value_lbrace_isObj _ _ _ _ hp
    simp only at hj
    split at hj
    · simp only [Option.some.injEq] at hj
      exact ⟨fs, hj.symm⟩
    · exact absurd hj (by simp)

/-- Step 6 applied to the events field written by step 10: the stored
single-event object is not an array, so the tolerant parse falls back
to the empty sequence. -/
theorem parseEventsArray_stringifyStrObj (fields : List (String × String)) :
    parseEventsArray (jsonStringifyStrObj fields) = [] := by
  unfold parseEventsArray
  rw [if_neg (jsonStringifyStrObj_ne_empty fields)]
  cases hp : jsonParse (jsonStringifyStrObj fields) with
  | none => simp
  | some j =>
    obtain ⟨fs, rfl⟩ := jsonParse_stringifyStrObj_notArr fields j hp
    simp

/-- Step 8 applied to the handshake field written by step 10: the
stored acknowledgment map parses strictly back to `\x7bD: "ok"\x7d`. -/
theorem parseHandshakeField_stringify_single (k v : String) :
    parseHandshakeField (jsonStringifyStrObj [(k, v)]) = [(k, .str v)] := by
  unfold parseHandshakeField
  simp only [if_neg (jsonStringifyStrObj_ne_empty [(k, v)]), jsonParse_stringify_single]

theorem hasDoorAcknowledgment_single (cid : String) :
    hasDoorAcknowledgment [(cid, .str "ok")] cid = true := by
  simp [hasDoorAcknowledgment, lookupField]

theorem hasReceiveEvent_nil (doorId : String) : hasReceiveEvent [] doorId = some false := rfl

/-- Redelivering the same record to the document produced by a first
delivery never changes it again: either the first pass dropped the
record (and the second pass drops it identically), or the first pass
wrote, in which case the second pass stops at the acknowledgment check
of step 9. -/
theorem handleReceivedReplication_second (received : ReceivedRecord) (txn : Option Txn)
    (clientId : Option String) (hOpt : Option HandshakeDoc) (now1 now2 : String) :
    handleReceivedReplication received txn clientId
        (handleReceivedReplication received txn clientId hOpt now1).1 now2
      = ((handleReceivedReplication received txn clientId hOpt now1).1, false) := by
  by_cases h1 : received.transaction_id = ""
  · simp [handleReceivedReplication, h1]
  · cases txn with
    | none => simp [handleReceivedReplication, h1]
    | some t =>
      cases clientId with
      | none => simp [handleReceivedReplication, h1]
      | some cid =>
        by_cases h2 : cid = ""
        · simp [handleReceivedReplication, h1, h2]
        · by_cases h3 : validateDoorPermission t cid = false
          · simp [handleReceivedReplication, h1, h2, h3]
          · cases hOpt with
            | none => simp [handleReceivedReplication, h1, h2, h3]
            | some h =>
              cases hre : hasReceiveEvent (parseEventsArray h.events) cid with
              | none => simp [handleReceivedReplication, h1, h2, h3, hre]
              | some b =>
                cases b with
                | true => simp [handleReceivedReplication, h1, h2, h3, hre]
                | false =>
                  by_cases hda : hasDoorAcknowledgment (parseHandshakeField h.handshake) cid = true
                  · simp [handleReceivedReplication, h1, h2, h3, hre, hda]
                  · simp [handleReceivedReplication, h1, h2, h3, hre, hda, updateHandshake,
                      parseEventsArray_stringifyStrObj, hasReceiveEvent_nil,
                      parseHandshakeField_stringify_single, hasDoorAcknowledgment_single]

/-! ## Claims -/

/-- Claim C1: the spec (and the code's own comment) say the step-10
write merges `\x7bD: "ok"\x7d` into the existing acknowledgment map as a
delta.  The code instead replaces the whole field: at a state whose
recovered map already holds `D2 → "ok"`, receiving as `D1` stores
`\x7b"D1":"ok"\x7d`, and `D2`'s acknowledgment is gone from the stored
field. -/
theorem claim_C1_overwrite_failing_input :
    handleReceivedReplication ⟨"t1", "", ""⟩ (some ⟨.arr ["D1", "D2"]⟩) (some "D1")
        (some ⟨"t1", "\x7b\"D2\":\"ok\"\x7d", "[]", "0"⟩) "1000"
      = (some ⟨"t1", "\x7b\"D1\":\"ok\"\x7d",
          "\x7b\"type\":\"RECEIVE\",\"at\":\"1000\",\"actor\":\"DOOR-D1\",\"status\":\"SUCCESS\"\x7d",
          "1000"⟩, true)
    ∧ hasDoorAcknowledgment (parseHandshakeField ("\x7b\"D2\":\"ok\"\x7d")) "D2" = true
    ∧ lookupField (parseHandshakeField ("\x7b\"D1\":\"ok\"\x7d")) "D2" = none :=
  ⟨rfl, rfl, rfl⟩

/-- Claim C2: applying the reconciliation pass N ≥ 1 times to the same
record — with arbitrary per-delivery timestamps — yields the same final
handshake document as applying it exactly once. -/
theorem claim_C2_idempotent (received : ReceivedRecord) (txn : Option Txn)
    (clientId : Option String) (hOpt : Option HandshakeDoc) (now : String) (nows : List String) :
    applyReceivedTimes received txn clientId hOpt (now :: nows)
      = applyReceivedTimes received txn clientId hOpt [now] := by
  suffices h : ∀ ns : List String,
      ns.foldl (fun st n => (handleReceivedReplication received txn clientId st n).1)
        ((handleReceivedReplication received txn clientId hOpt now).1)
      = (handleReceivedReplication received txn clientId hOpt now).1 by
    simpa [applyReceivedTimes] using h nows
  intro ns
  induction ns with
  | nil => rfl
  | cons n ns ih =>
    rw [List.foldl_cons]
    rw [show (handleReceivedReplication received txn clientId
          ((handleReceivedReplication received txn clientId hOpt now).1) n).1
        = (handleReceivedReplication received txn clientId hOpt now).1 from by
      rw [handleReceivedReplication_second]]
    exact ih

/-- Every branch of the reconciliation pass that reports a write goes
through `updateHandshake`: the resulting document is exactly the local
document with the overwritten handshake, events and timestamp
fields. -/
theorem handleReceivedReplication_wrote (received : ReceivedRecord) (txn : Option Txn)
    (clientId : Option String) (hOpt : Option HandshakeDoc) (now : String)
    (h : (handleReceivedReplication received txn clientId hOpt now).2 = true) :
    ∃ t cid h0, txn = some t ∧ clientId = some cid ∧ hOpt = some h0 ∧
      handleReceivedReplication received txn clientId hOpt now
        = (some (updateHandshake h0 cid now), true) := by
  by_cases h1 : received.transaction_id = ""
  · simp [handleReceivedReplication, h1] at h
  · cases txn with
    | none => simp [handleReceivedReplication, h1] at h
    | some t =>
      cases clientId with
      | none => simp [handleReceivedReplication, h1] at h
      | some cid =>
        by_cases h2 : cid = ""
        · simp [handleReceivedReplication, h1, h2] at h
        · by_cases h3 : validateDoorPermission t cid = false
          · simp [handleReceivedReplication, h1, h2, h3] at h
          · cases hOpt with
            | none => simp [handleReceivedReplication, h1, h2, h3] at h
            | some h0 =>
              cases hre : hasReceiveEvent (parseEventsArray h0.events) cid with
              | none => simp [handleReceivedReplication, h1, h2, h3, hre] at h
              | some b =>
                cases b with
                | true => simp [handleReceivedReplication, h1, h2, h3, hre] at h
                | false =>
                  by_cases hda : hasDoorAcknowledgment (parseHandshakeField h0.handshake) cid = true
                  · simp [handleReceivedReplication, h1, h2, h3, hre, hda] at h
                  · exact ⟨t, cid, h0, rfl, rfl, rfl, by
                      simp [handleReceivedReplication, h1, h2, h3, hre, hda]⟩

/-- Claim C3 counterexample: in Scenario 1 (prior events `"[]"`), the
stored events field after the write does not even parse to an array —
it is the JSON text of the single new event object — so it does not
parse to the prior sequence with one event appended. -/
theorem claim_C3_counterexample :
    ((handleReceivedReplication ⟨"t1", "", ""⟩ (some ⟨.arr ["D1", "D2"]⟩) (some "D1")
        (some ⟨"t1", "\x7b\x7d", "[]", "0"⟩) "1000").1.map HandshakeDoc.events)
      = some ("\x7b\"type\":\"RECEIVE\",\"at\":\"1000\",\"actor\":\"DOOR-D1\",\"status\":\"SUCCESS\"\x7d")
    ∧ Option.map Json.isArr (jsonParse
        ("\x7b\"type\":\"RECEIVE\",\"at\":\"1000\",\"actor\":\"DOOR-D1\",\"status\":\"SUCCESS\"\x7d"))
      = some false :=
  ⟨rfl, rfl⟩

/-- Claim C3 (amended): on a reconciliation write for door D the stored
events field is exactly the `JSON.stringify` of the single new event
`\x7btype: RECEIVE, at: now, actor: "DOOR-"+D, status: SUCCESS\x7d`; prior
events are not retained in the local field. -/
theorem claim_C3_events_single_object (received : ReceivedRecord) (txn : Option Txn)
    (clientId : Option String) (hOpt : Option HandshakeDoc) (now : String)
    (h : (handleReceivedReplication received txn clientId hOpt now).2 = true) :
    ∃ cid h0, clientId = some cid ∧ hOpt = some h0 ∧
      (handleReceivedReplication received txn clientId hOpt now).1.map HandshakeDoc.events
        = some (jsonStringifyStrObj
            [("type", "RECEIVE"), ("at", now), ("actor", "DOOR-" ++ cid), ("status", "SUCCESS")]) := by
  obtain ⟨t, cid, h0, -, hcid, hh0, heq⟩ :=
    handleReceivedReplication_wrote received txn clientId hOpt now h
  exact ⟨cid, h0, hcid, hh0, by rw [heq]; rfl⟩

/-- Claim C3 witness: Scenario 1 performs the write and stores the
single-event JSON text. -/
theorem claim_C3_witness :
    (handleReceivedReplication ⟨"t1", "", ""⟩ (some ⟨.arr ["D1", "D2"]⟩) (some "D1")
        (some ⟨"t1", "\x7b\x7d", "[]", "0"⟩) "1000").2 = true
    ∧ ∃ cid h0, (some "D1" : Option String) = some cid
        ∧ (some (⟨"t1", "\x7b\x7d", "[]", "0"⟩ : HandshakeDoc)) = some h0
        ∧ (handleReceivedReplication ⟨"t1", "", ""⟩ (some ⟨.arr ["D1", "D2"]⟩) (some "D1")
            (some ⟨"t1", "\x7b\x7d", "[]", "0"⟩) "1000").1.map HandshakeDoc.events
          = some (jsonStringifyStrObj
              [("type", "RECEIVE"), ("at", "1000"), ("actor", "DOOR-" ++ cid), ("status", "SUCCESS")]) :=
  ⟨rfl, claim_C3_events_single_object ⟨"t1", "", ""⟩ (some ⟨.arr ["D1", "D2"]⟩) (some "D1")
      (some ⟨"t1", "\x7b\x7d", "[]", "0"⟩) "1000" rfl⟩

/-- Claim C4: when the device's door id is not in the normalized
`door_permission` list of the parent transaction, the reconciliation
pass performs no write and leaves the handshake document unchanged,
whatever the record contains. -/
theorem claim_C4_authorization (received : ReceivedRecord) (t : Txn) (d : String)
    (hOpt : Option HandshakeDoc) (now : String)
    (hperm : (normalizeDoorPermission t.door_permission).contains d = false) :
    handleReceivedReplication received (some t) (some d) hOpt now = (hOpt, false) := by
  by_cases h1 : received.transaction_id = ""
  · simp [handleReceivedReplication, h1]
  · by_cases h2 : d = ""
    · simp [handleReceivedReplication, h1, h2]
    · have h3 : validateDoorPermission t d = false := hperm
      simp [handleReceivedReplication, h1, h2, h3]

/-- Claim C4 witness: door `D1` is not in the comma-joined permission
string `"D2, D3"`, so a record for an authorized-looking transaction
leaves the handshake untouched. -/
theorem claim_C4_witness :
    (normalizeDoorPermission (DoorPermission.str "D2, D3")).contains "D1" = false
    ∧ handleReceivedReplication ⟨"t1", "x", "y"⟩ (some ⟨.str "D2, D3"⟩) (some "D1")
        (some ⟨"t1", "\x7b\x7d", "[]", "0"⟩) "1000"
      = (some ⟨"t1", "\x7b\x7d", "[]", "0"⟩, false) :=
  ⟨rfl, claim_C4_authorization ⟨"t1", "x", "y"⟩ ⟨.str "D2, D3"⟩ "D1"
      (some ⟨"t1", "\x7b\x7d", "[]", "0"⟩) "1000" rfl⟩

/-- Claim C5: when the strict parse of the handshake field fails or
yields a non-object, `parseHandshakeField` is the left-to-right
brace-depth recovery scan with an `Object.assign` shallow merge of the
recovered objects (empty when nothing is recoverable); in particular
the input `\x7b"a":"ok"\x7dgarbage\x7b"b":"ok"\x7d` fails the strict parse,
recovers exactly the two objects, and merges them to
`\x7ba: "ok", b: "ok"\x7d`. -/
theorem claim_C5_tolerant_recovery :
    (∀ (s : String) (flds : List (String × Json)), s ≠ "" →
        jsonParse s = some (.obj flds) → parseHandshakeField s = flds)
    ∧ (∀ s : String, s ≠ "" → (∀ flds, jsonParse s ≠ some (.obj flds)) →
        parseHandshakeField s = (extractJsonObjects s.data).foldl mergeObj [])
    ∧ jsonParse ("\x7b\"a\":\"ok\"\x7dgarbage\x7b\"b\":\"ok\"\x7d") = none
    ∧ extractJsonObjects ("\x7b\"a\":\"ok\"\x7dgarbage\x7b\"b\":\"ok\"\x7d" : String).data
        = [[("a", .str "ok")], [("b", .str "ok")]]
    ∧ parseHandshakeField ("\x7b\"a\":\"ok\"\x7dgarbage\x7b\"b\":\"ok\"\x7d")
        = [("a", .str "ok"), ("b", .str "ok")] := by
  refine ⟨?_, ?_, rfl, rfl, rfl⟩
  · intro s flds hne hp
    unfold parseHandshakeField
    simp only [if_neg hne, hp]
  · intro s hne hnp
    unfold parseHandshakeField
    simp only [if_neg hne]

/-- Claim C5 witness: a well-formed one-entry map takes the strict
branch. -/
theorem claim_C5_witness :
    ("\x7b\"a\":\"ok\"\x7d" : String) ≠ ""
    ∧ jsonParse ("\x7b\"a\":\"ok\"\x7d") = some (.obj [("a", .str "ok")])
    ∧ parseHandshakeField ("\x7b\"a\":\"ok\"\x7d") = [("a", .str "ok")] :=
  ⟨by decide, rfl, claim_C5_tolerant_recovery.1 ("\x7b\"a\":\"ok\"\x7d") [("a", .str "ok")]
      (by decide) rfl⟩

/-- Claim C9: `parseEventsArray` never throws: invalid JSON or a
non-array value yields the empty sequence, a parsed array is returned
as is; in particular `"not json"` and `"\x7b\x7d"` both fall back to `[]`. -/
theorem claim_C9_events_parse_total :
    (∀ s : String, jsonParse s = none → parseEventsArray s = [])
    ∧ (∀ (s : String) (j : Json), jsonParse s = some j → j.isArr = false →
        parseEventsArray s = [])
    ∧ (∀ (s : String) (a : List Json), jsonParse s = some (.arr a) →
        parseEventsArray s = a)
    ∧ parseEventsArray ("not json") = [] ∧ parseEventsArray ("\x7b\x7d") = [] := by
  refine ⟨?_, ?_, ?_, rfl, rfl⟩
  · intro s hp
    unfold parseEventsArray
    by_cases hs : s = ""
    · simp [hs]
    · simp only [if_neg hs, hp]
  · intro s j hp hja
    unfold parseEventsArray
    by_cases hs : s = ""
    · simp [hs]
    · simp only [if_neg hs, hp]
      cases j with
      | arr a => exact absurd hja (by simp [Json.isArr])
      | null => rfl
      | bool b => rfl
      | num n => rfl
      | str v => rfl
      | obj fs => rfl
  · intro s a hp
    by_cases hs : s = ""
    · rw [hs] at hp
      exact absurd hp (by simp [show jsonParse "" = none from rfl])
    · unfold parseEventsArray
      simp only [if_neg hs, hp]

/-- Claim C9 witness: the two spec inputs, one invalid, one a
non-array. -/
theorem claim_C9_witness :
    jsonParse ("not json") = none ∧ parseEventsArray ("not json") = []
    ∧ jsonParse ("\x7b\x7d") = some (.obj []) ∧ (Json.obj []).isArr = false
    ∧ parseEventsArray ("\x7b\x7d") = [] :=
  ⟨rfl, claim_C9_events_parse_total.1 ("not json") rfl, rfl, rfl,
    claim_C9_events_parse_total.2.1 ("\x7b\x7d") (.obj []) rfl rfl⟩

/-- Claim C6 counterexample: from `Ready` with active door `door-1`, a
call `initialize("door-2")` does transition to `Initializing` and
replaces the session with the new door id — no `destroy()` back to
`Idle` is required, contradicting the claim. -/
theorem claim_C6_counterexample :
    (initializeCall ⟨true, false, some "door-1"⟩ "door-2" true).2.2
      = [.initializing, .ready]
    ∧ InitEmission.initializing ∈ (initializeCall ⟨true, false, some "door-1"⟩ "door-2" true).2.2
    ∧ (initializeCall ⟨true, false, some "door-1"⟩ "door-2" true).2.1
      = ⟨true, false, some "door-2"⟩ :=
  ⟨rfl, by decide, rfl⟩

/-- Claim C6 (amended): a call to `initialize(doorId)` while `Ready` is
an immediate no-op exactly when the active door id equals `doorId`;
with a different door id the call transitions to `Initializing` and
starts a new session directly, without going through `destroy()`. -/
theorem claim_C6_ready_reinit (s : DbState) (d : String) (oc : Bool)
    (hready : s.isReady = true) (hinit : s.isInitializing = false) :
    (s.currentDoorId = some d → initializeCall s d oc = (.noop, s, []))
    ∧ (s.currentDoorId ≠ some d →
        (initializeCall s d oc).2.2 = [.initializing, if oc then .ready else .error]
        ∧ (initializeCall s d oc).2.1 = initFinish d oc) := by
  constructor
  · intro hd
    simp [initializeCall, hinit, hready, hd]
  · intro hd
    cases oc <;> simp [initializeCall, initFinish, hinit, hready, hd]

/-- Claim C6 witness: the no-op fast path at an equal door id. -/
theorem claim_C6_witness :
    initializeCall ⟨true, false, some "door-1"⟩ "door-1" true
      = (.noop, ⟨true, false, some "door-1"⟩, []) :=
  (claim_C6_ready_reinit ⟨true, false, some "door-1"⟩ "door-1" true rfl rfl).1 rfl

/-- Claim C7 counterexample: `destroy` stops the transaction
replication first and the handshake replication second — the claimed
handshake-before-transaction order is violated on every teardown with
both services present. -/
theorem claim_C7_counterexample :
    destroy ⟨true, false, some "door-1"⟩ true true true
      = (.ok, ⟨false, false, none⟩,
          [.stopTxnReplication, .stopHandshakeReplication, .unsubscribeTxnNetwork,
            .unsubscribeHandshakeNetwork, .graceWait 500, .removeStore])
    ∧ ([TeardownAction.stopTxnReplication, .stopHandshakeReplication, .unsubscribeTxnNetwork,
          .unsubscribeHandshakeNetwork, .graceWait 500, .removeStore].indexOf
        TeardownAction.stopTxnReplication = 0)
    ∧ ([TeardownAction.stopTxnReplication, .stopHandshakeReplication, .unsubscribeTxnNetwork,
          .unsubscribeHandshakeNetwork, .graceWait 500, .removeStore].indexOf
        TeardownAction.stopHandshakeReplication = 1) :=
  ⟨rfl, by decide, by decide⟩

/-- Claim C7 (amended): `destroy` stops the Orchestrators in the
deterministic order transaction-before-handshake, and only after both
stops waits the grace interval and removes the store. -/
theorem claim_C7_teardown_order (s : DbState)
    (hready : s.isReady = true) (hinit : s.isInitializing = false) :
    destroy s true true true
      = (.ok, ⟨false, false, none⟩,
          [.stopTxnReplication, .stopHandshakeReplication, .unsubscribeTxnNetwork,
            .unsubscribeHandshakeNetwork, .graceWait 500, .removeStore])
    ∧ ((destroy s true true true).2.2.indexOf TeardownAction.stopTxnReplication
        < (destroy s true true true).2.2.indexOf TeardownAction.stopHandshakeReplication)
    ∧ ((destroy s true true true).2.2.indexOf TeardownAction.stopHandshakeReplication
        < (destroy s true true true).2.2.indexOf (TeardownAction.graceWait 500))
    ∧ ((destroy s true true true).2.2.indexOf (TeardownAction.graceWait 500)
        < (destroy s true true true).2.2.indexOf TeardownAction.removeStore) := by
  have htrace : destroy s true true true
      = (.ok, ⟨false, false, none⟩,
          [.stopTxnReplication, .stopHandshakeReplication, .unsubscribeTxnNetwork,
            .unsubscribeHandshakeNetwork, .graceWait 500, .removeStore]) := by
    simp [destroy, stopReplication, hready, hinit]
  refine ⟨htrace, ?_, ?_, ?_⟩ <;> rw [htrace] <;> decide

/-- Claim C7 witness: teardown from a concrete ready state. -/
theorem claim_C7_witness :
    destroy ⟨true, false, some "door-9"⟩ true true true
      = (.ok, ⟨false, false, none⟩,
          [.stopTxnReplication, .stopHandshakeReplication, .unsubscribeTxnNetwork,
            .unsubscribeHandshakeNetwork, .graceWait 500, .removeStore]) :=
  (claim_C7_teardown_order ⟨true, false, some "door-9"⟩ rfl rfl).1

/-- Claim C8: a second `initialize` arriving while the state is
`Initializing` fails with a `LifecycleError` raised synchronously,
mutating nothing and emitting nothing, while the first call finishes
from the same intermediate state exactly as an uninterfered call would
— to `Ready` on success, to the error state on failure. -/
theorem claim_C8_no_concurrent_init (s : DbState) (d1 d2 : String) (oc1 oc2 : Bool)
    (hinit : s.isInitializing = false)
    (hnofast : ¬(s.isReady = true ∧ s.currentDoorId = some d1)) :
    initializeCall (initBegin s) d2 oc2 = (.lifecycleError, initBegin s, [])
    ∧ initFinish d1 oc1 = (initializeCall s d1 oc1).2.1
    ∧ (initFinish d1 oc1).isReady = oc1
    ∧ (initializeCall s d1 oc1).2.2 = [.initializing, if oc1 then .ready else .error] := by
  refine ⟨?_, ?_, ?_, ?_⟩
  · simp [initializeCall, initBegin]
  · cases oc1 <;> simp [initializeCall, initFinish, hinit, hnofast]
  · cases oc1 <;> rfl
  · cases oc1 <;> simp [initializeCall, hinit, hnofast]

/-- Claim C8 witness: Scenario 4 — two concurrent
`initialize("door-1")` calls from `Idle`. -/
theorem claim_C8_witness :
    initializeCall (initBegin ⟨false, false, none⟩) "door-1" true
      = (.lifecycleError, initBegin ⟨false, false, none⟩, [])
    ∧ (initFinish "door-1" true).isReady = true :=
  ⟨(claim_C8_no_concurrent_init ⟨false, false, none⟩ "door-1" "door-1" true true rfl
      (by simp)).1,
    (claim_C8_no_concurrent_init ⟨false, false, none⟩ "door-1" "door-1" true true rfl
      (by simp)).2.2.1⟩

/-- Claim C10 counterexample: an empty-string client id (storable
through `setClientId("")`) is returned by `getClientId` — a non-null
value — but, being falsy, is not cached; after `setClientId("door-2")`
a later call returns the different id `door-2`. -/
theorem claim_C10_counterexample :
    (getClientId (setClientId ⟨none, none⟩ "")).1 = some ""
    ∧ (getClientId (setClientId ((getClientId (setClientId ⟨none, none⟩ "")).2) "door-2")).1
      = some "door-2"
    ∧ (some "door-2" : Option String) ≠ some "" :=
  ⟨rfl, rfl, by decide⟩

/-- Claim C10 (amended): once `getClientId` has returned a non-empty
door id, every later call on the same service instance returns that
same cached value, whatever sequence of `setClientId`, `removeClientId`
and `getClientId` calls happens in between. -/
theorem claim_C10_cached_identity (s : IdentityState) (v : String) (ops : List IdOp)
    (hv : v ≠ "") (hret : (getClientId s).1 = some v) :
    (getClientId (applyIdOps (getClientId s).2 ops)).1 = some v := by
  have hcache : (getClientId s).2.cachedId = some v := by
    unfold getClientId at hret ⊢
    by_cases hc : strTruthy s.cachedId = true
    · simp only [if_pos hc] at hret ⊢
      exact hret
    · simp only [if_neg hc] at hret ⊢
      have hpref : s.prefClientId = some v := hret
      show (if strTruthy s.prefClientId = true then s.prefClientId else none) = some v
      rw [hpref]
      simp [strTruthy, hv]
  have key : ∀ (ops' : List IdOp) (s' : IdentityState), s'.cachedId = some v →
      (applyIdOps s' ops').cachedId = some v := by
    intro ops'
    induction ops' with
    | nil => intro s' h; exact h
    | cons op ops' ih =>
      intro s' h
      rw [show applyIdOps s' (op :: ops') = applyIdOps (applyIdOp s' op) ops' from rfl]
      apply ih
      cases op with
      | get => simp [applyIdOp, getClientId, strTruthy, h, hv]
      | set w => simp [applyIdOp, setClientId, h]
      | remove => simp [applyIdOp, removeClientId, h]
  have hfinal := key ops _ hcache
  generalize happ : applyIdOps (getClientId s).2 ops = t at hfinal ⊢
  unfold getClientId
  rw [hfinal]
  simp [strTruthy, hv]

/-- Claim C10 witness: a cached `door-1` survives a `setClientId` to a
different id, a `removeClientId`, and another read. -/
theorem claim_C10_witness :
    (getClientId ⟨some "door-1", none⟩).1 = some "door-1"
    ∧ (getClientId (applyIdOps (getClientId ⟨some "door-1", none⟩).2
        [.set "door-2", .remove, .get])).1 = some "door-1" :=
  ⟨rfl, claim_C10_cached_identity ⟨some "door-1", none⟩ "door-1"
      [.set "door-2", .remove, .get] (by decide) rfl⟩
